import Mathlib

/-!
Verification of the go-eva core against its specification.

The Go code is shallowly embedded: float64 arithmetic is modelled as exact
rational arithmetic over ℚ, `math.Pi` is modelled by the exact rational value
of the IEEE-754 double that `math.Pi` denotes, durations and wall-clock times
are rationals, and the irrational library functions `math.Sqrt`, `math.Cos`
and `math.Sin` (used only for the tracker's est_x/est_y position estimate,
which no verified property inspects) are supplied as an abstract oracle of
type ℚ → ℚ.  Stateful components (tracker, cloud client, USB source) become
pure state-transition functions; the environment (USB transfer outcomes, dial
outcomes, read errors, cancellation) is passed in explicitly, with
cancellation modelled as the end of the supplied event list.
-/

namespace GoEva

/-! ## Coordinate conversion (internal/doa/source.go) -/

/-- The exact rational value of the IEEE-754 double `math.Pi`. -/
def piF : ℚ := 884279719003555 / 2 ^ 48

/-- `ToEvaAngle` from internal/doa/source.go: `(math.Pi / 2) - xvfAngle`. -/
def ToEvaAngle (xvfAngle : ℚ) : ℚ := piF / 2 - xvfAngle

/-- `FromEvaAngle` from internal/doa/source.go: `(math.Pi / 2) - evaAngle`. -/
def FromEvaAngle (evaAngle : ℚ) : ℚ := piF / 2 - evaAngle

/-- `Clamp` from internal/doa/source.go. -/
def Clamp (value min max : ℚ) : ℚ :=
  if value < min then min
  else if value > max then max
  else value

/-- First loop of `NormalizeAngle`: `for angle > math.Pi { angle -= 2 * math.Pi }`. -/
def normSub (a : ℚ) : ℚ :=
  if h : piF < a then normSub (a - 2 * piF) else a
termination_by (⌈(a - piF) / (2 * piF)⌉).toNat
decreasing_by
  have hpi : (0 : ℚ) < piF := by norm_num [piF]
  have h2 : (0 : ℚ) < 2 * piF := by linarith
  have h2' : (2 : ℚ) * piF ≠ 0 := ne_of_gt h2
  have key : (a - 2 * piF - piF) / (2 * piF) = (a - piF) / (2 * piF) - 1 := by
    field_simp
    ring
  rw [key, Int.ceil_sub_one]
  have hpos : 0 < ⌈(a - piF) / (2 * piF)⌉ :=
    Int.ceil_pos.mpr (div_pos (by linarith) h2)
  omega

/-- Second loop of `NormalizeAngle`: `for angle < -math.Pi { angle += 2 * math.Pi }`. -/
def normAdd (a : ℚ) : ℚ :=
  if h : a < -piF then normAdd (a + 2 * piF) else a
termination_by (⌈(-piF - a) / (2 * piF)⌉).toNat
decreasing_by
  have hpi : (0 : ℚ) < piF := by norm_num [piF]
  have h2 : (0 : ℚ) < 2 * piF := by linarith
  have h2' : (2 : ℚ) * piF ≠ 0 := ne_of_gt h2
  have key : (-piF - (a + 2 * piF)) / (2 * piF) = (-piF - a) / (2 * piF) - 1 := by
    field_simp
    ring
  rw [key, Int.ceil_sub_one]
  have hpos : 0 < ⌈(-piF - a) / (2 * piF)⌉ :=
    Int.ceil_pos.mpr (div_pos (by linarith) h2)
  omega

/-- `NormalizeAngle` from internal/doa/source.go: the subtracting loop followed
by the adding loop. -/
def NormalizeAngle (a : ℚ) : ℚ := normAdd (normSub a)

/-! ## Tracker data model (internal/doa/source.go, internal/doa/tracker.go) -/

/-- `doa.Reading`: one raw measurement from the source. -/
structure Reading where
  angle : ℚ
  rawAngle : ℚ
  speaking : Bool
  timestamp : ℚ
  latencyMs : ℤ
  speechEnergy : List ℚ
  micAzimuths : List ℚ
  totalEnergy : ℚ
deriving DecidableEq, Repr

/-- The zero value of `doa.Reading` (Go zero-initialisation; the two enhanced
vectors are `[4]float64` zero arrays). -/
def zeroReading : Reading :=
  { angle := 0, rawAngle := 0, speaking := false, timestamp := 0, latencyMs := 0
    speechEnergy := List.replicate 4 0, micAzimuths := List.replicate 4 0
    totalEnergy := 0 }

/-- `doa.Result`: a processed, smoothed DOA reading. -/
structure Result where
  reading : Reading
  smoothedAngle : ℚ
  confidence : ℚ
  speakingLatched : Bool
  estX : ℚ
  estY : ℚ
deriving DecidableEq, Repr

/-- The zero value of `doa.Result`. -/
def zeroResult : Result :=
  { reading := zeroReading, smoothedAngle := 0, confidence := 0
    speakingLatched := false, estX := 0, estY := 0 }

/-- `doa.ConfidenceConfig`. -/
structure ConfidenceConfig where
  base : ℚ
  speakingBonus : ℚ
  stabilityBonus : ℚ
deriving DecidableEq, Repr

/-- `doa.TrackerConfig` (durations in milliseconds). -/
structure TrackerConfig where
  pollInterval : ℚ
  speakingLatchDur : ℚ
  emaAlpha : ℚ
  historySize : ℕ
  confidence : ConfidenceConfig
deriving DecidableEq, Repr

/-- `doa.DefaultTrackerConfig`. -/
def defaultTrackerConfig : TrackerConfig :=
  { pollInterval := 50, speakingLatchDur := 500, emaAlpha := 3 / 10
    historySize := 100
    confidence := { base := 3 / 10, speakingBonus := 4 / 10, stabilityBonus := 2 / 10 } }

/-- Abstract stand-in for the irrational library functions `math.Sqrt`,
`math.Cos` and `math.Sin` used only by the est_x/est_y position estimate.
They have no exact rational counterpart; every theorem below holds for an
arbitrary oracle. -/
structure TrigOracle where
  sqrt : ℚ → ℚ
  cos : ℚ → ℚ
  sin : ℚ → ℚ

/-- A concrete oracle used to instantiate counterexamples and witnesses. -/
def zeroOracle : TrigOracle := { sqrt := fun _ => 0, cos := fun _ => 0, sin := fun _ => 0 }

/-- The calibration constant `referenceEnergy` in `Reading.EstimatedDistance`. -/
def referenceEnergy : ℚ := 6267144

/-- `Reading.EstimatedDistance`: zero when no energy or not speaking, else
`sqrt(referenceEnergy / totalEnergy)` clamped to [0.3, 5.0] by two ifs. -/
def estimatedDistance (o : TrigOracle) (r : Reading) : ℚ :=
  if r.totalEnergy ≤ 0 ∨ r.speaking = false then 0
  else
    let d0 := o.sqrt (referenceEnergy / r.totalEnergy)
    let d1 := if d0 < 3 / 10 then 3 / 10 else d0
    if d1 > 5 then 5 else d1

/-- `Reading.EstimatedX`: forward distance `dist * cos(angle)`. -/
def estimatedX (o : TrigOracle) (r : Reading) : ℚ :=
  let dist := estimatedDistance o r
  if dist ≤ 0 then 0 else dist * o.cos r.angle

/-- `Reading.EstimatedY`: lateral position `dist * sin(angle)`. -/
def estimatedY (o : TrigOracle) (r : Reading) : ℚ :=
  let dist := estimatedDistance o r
  if dist ≤ 0 then 0 else dist * o.sin r.angle

/-- The mutable tracker state guarded by the tracker mutex. -/
structure TrackerState where
  latest : Result
  history : List Result
  speakingLatchedAt : ℚ
  pollCount : ℤ
  pollErrorCount : ℤ
  totalLatencyMs : ℤ
deriving DecidableEq, Repr

/-- The state `doa.NewTracker` starts from (Go zero values; empty history). -/
def initialTrackerState : TrackerState :=
  { latest := zeroResult, history := [], speakingLatchedAt := 0
    pollCount := 0, pollErrorCount := 0, totalLatencyMs := 0 }

/-- `Tracker.updateSpeakingLatch`, returning the new `speakingLatchedAt`
together with the latched flag.  `now` is the wall clock inside the call. -/
def updateSpeakingLatch (cfg : TrackerConfig) (st : TrackerState)
    (rawSpeaking : Bool) (now : ℚ) : ℚ × Bool :=
  if rawSpeaking then (now, true)
  else if now - st.speakingLatchedAt < cfg.speakingLatchDur then (st.speakingLatchedAt, true)
  else (st.speakingLatchedAt, false)

/-- The EMA smoothing step of `Tracker.poll`: `smoothed = reading.Angle` when
history is empty, else `alpha * reading.Angle + (1 - alpha) * latest.SmoothedAngle`. -/
def emaSmooth (cfg : TrackerConfig) (st : TrackerState) (r : Reading) : ℚ :=
  if 0 < st.history.length then
    cfg.emaAlpha * r.angle + (1 - cfg.emaAlpha) * st.latest.smoothedAngle
  else r.angle

/-- `Tracker.calculateConfidence`: base, plus speaking bonus, plus stability
bonus when the variance of the last 5 history smoothed angles against the
just-computed smoothed `angle` is below 0.01, clamped to [0, 1]. -/
def calculateConfidence (cfg : TrackerConfig) (history : List Result)
    (speaking : Bool) (angle : ℚ) : ℚ :=
  let conf0 := cfg.confidence.base
  let conf1 := if speaking then conf0 + cfg.confidence.speakingBonus else conf0
  let conf2 :=
    if 5 ≤ history.length then
      let variance :=
        (((history.drop (history.length - 5)).map
          (fun r => (r.smoothedAngle - angle) * (r.smoothedAngle - angle))).sum) / 5
      if variance < 1 / 100 then conf1 + cfg.confidence.stabilityBonus else conf1
    else conf1
  Clamp conf2 0 1

/-- `Tracker.appendHistory`: append, and when the length exceeds
`historySize` shift off the front and truncate to `historySize`. -/
def appendHistory (cfg : TrackerConfig) (history : List Result) (result : Result) :
    List Result :=
  let h := history ++ [result]
  if cfg.historySize < h.length then (h.drop 1).take cfg.historySize else h

/-- The `Result` constructed by a successful `Tracker.poll` from state `st`,
reading `r`, latch clock `now` and measured poll latency `lat`. -/
def pollResult (o : TrigOracle) (cfg : TrackerConfig) (st : TrackerState)
    (r : Reading) (now : ℚ) (lat : ℤ) : Result :=
  { reading := { r with latencyMs := lat }
    smoothedAngle := emaSmooth cfg st r
    confidence := calculateConfidence cfg st.history
      (updateSpeakingLatch cfg st r.speaking now).2 (emaSmooth cfg st r)
    speakingLatched := (updateSpeakingLatch cfg st r.speaking now).2
    estX := estimatedX o { r with latencyMs := lat }
    estY := estimatedY o { r with latencyMs := lat } }

/-- The state transition of a successful `Tracker.poll`. -/
def pollSuccess (o : TrigOracle) (cfg : TrackerConfig) (st : TrackerState)
    (r : Reading) (now : ℚ) (lat : ℤ) : TrackerState :=
  { latest := pollResult o cfg st r now lat
    history := appendHistory cfg st.history (pollResult o cfg st r now lat)
    speakingLatchedAt := (updateSpeakingLatch cfg st r.speaking now).1
    pollCount := st.pollCount + 1
    pollErrorCount := st.pollErrorCount
    totalLatencyMs := st.totalLatencyMs + lat }

/-- The state transition of a failed `Tracker.poll` (source error): only the
error counter moves. -/
def pollFailure (st : TrackerState) : TrackerState :=
  { st with pollErrorCount := st.pollErrorCount + 1 }

/-- `Tracker.GetTarget`: `(smoothed, confidence, true)` unless
`latest.Confidence < confidence.Base`. -/
def getTarget (cfg : TrackerConfig) (st : TrackerState) : ℚ × ℚ × Bool :=
  if st.latest.confidence < cfg.confidence.base then (0, 0, false)
  else (st.latest.smoothedAngle, st.latest.confidence, true)

/-- One tracker poll event: the reading returned by the source, the wall
clock observed by the latch update, and the measured latency. -/
abbrev PollEvent : Type := Reading × ℚ × ℤ

/-- A sequence of successful polls, folding `pollSuccess` over the events. -/
def runPolls (o : TrigOracle) (cfg : TrackerConfig) :
    List PollEvent → TrackerState → TrackerState
  | [], st => st
  | e :: rest, st => runPolls o cfg rest (pollSuccess o cfg st e.1 e.2.1 e.2.2)

/-! ## Message codec (internal/protocol/message.go)

The envelope delegates to `encoding/json`, an external library: it is
modelled at the JSON-value level (a `Json` tree stands for the marshalled
text; `RawInput.malformed` stands for byte sequences that are not valid
JSON).  Field tags of `protocol.Message` are mirrored exactly: `ts` and
`data` carry `omitempty`, and unmarshalling fills fields from the object in
key order, rejecting values of the wrong JSON kind as `encoding/json` does. -/

/-- A JSON value. -/
inductive Json where
  | null : Json
  | boolean : Bool → Json
  | num : ℚ → Json
  | str : String → Json
  | arr : List Json → Json
  | obj : List (String × Json) → Json

/-- `protocol.Message`: the envelope with fields `type`, `ts,omitempty`,
`data,omitempty`. -/
structure Message where
  type : String
  ts : ℤ
  data : Option Json

/-- The Go zero value of `protocol.Message`, which `json.Unmarshal` fills. -/
def zeroMessage : Message := { type := "", ts := 0, data := none }

/-- `protocol.NewMessage`: payload already marshalled (value level), timestamp
set to the current epoch milliseconds supplied as `nowMs`. -/
def newMessage (msgType : String) (payload : Option Json) (nowMs : ℤ) : Message :=
  { type := msgType, ts := nowMs, data := payload }

/-- The enumerated message types of internal/protocol/message.go. -/
def supportedTypes : List String :=
  ["frame", "doa", "mic", "state", "motor", "speak", "emotion", "config", "ping", "pong"]

/-- `json.Marshal` of a `protocol.Message` at the value level: struct field
order, `ts` omitted when zero, `data` omitted when nil. -/
def encodeMessage (m : Message) : Json :=
  Json.obj (("type", Json.str m.type) ::
    ((if m.ts = 0 then [] else [("ts", Json.num (m.ts : ℚ))]) ++
     (match m.data with
      | none => []
      | some j => [("data", j)])))

/-- `json.Unmarshal` of an object body into a `protocol.Message`: keys are
processed in order (later duplicates win), unknown keys are ignored, a
`type` value that is not a string or a `ts` value that is not an integer is
an error, and `data` (a `json.RawMessage`) accepts any JSON value. -/
def decodeFields : List (String × Json) → Message → Except String Message
  | [], m => Except.ok m
  | (k, v) :: rest, m =>
    if k = "type" then
      match v with
      | Json.str s => decodeFields rest { m with type := s }
      | _ => Except.error "cannot unmarshal into MessageType"
    else if k = "ts" then
      match v with
      | Json.num q =>
        if q.den = 1 then decodeFields rest { m with ts := q.num }
        else Except.error "cannot unmarshal into int64"
      | _ => Except.error "cannot unmarshal into int64"
    else if k = "data" then decodeFields rest { m with data := some v }
    else decodeFields rest m

/-- Input to `ParseMessage`: either bytes that parse as a JSON value, or
bytes that are not valid JSON at all. -/
inductive RawInput where
  | valid : Json → RawInput
  | malformed : RawInput

/-- `protocol.ParseMessage`: `json.Unmarshal` into a `Message`; malformed
bytes and non-object JSON are errors. -/
def parseMessage : RawInput → Except String Message
  | RawInput.malformed => Except.error "failed to parse message"
  | RawInput.valid j =>
    match j with
    | Json.obj fields => decodeFields fields zeroMessage
    | _ => Except.error "cannot unmarshal into Message"

/-- `Message.Bytes`: `json.Marshal` of the envelope (value level). -/
def bytesOf (m : Message) : RawInput := RawInput.valid (encodeMessage m)

/-- The base64 standard-alphabet character for a 6-bit value
(`encoding/base64.StdEncoding`, external library modelled directly). -/
def b64Char (n : ℕ) : Char :=
  ("ABCDEFGHIJKLMNOPQRSTUVWXYZabcdefghijklmnopqrstuvwxyz0123456789+/").toList.getD n 'A'

/-- `base64.StdEncoding.EncodeToString` over bytes (each taken mod 256). -/
def base64Encode : List ℕ → String
  | [] => ""
  | [a] =>
    String.mk [b64Char (a % 256 / 4), b64Char (a % 256 % 4 * 16)] ++ "=="
  | [a, b] =>
    String.mk [b64Char (a % 256 / 4), b64Char (a % 256 % 4 * 16 + b % 256 / 16),
      b64Char (b % 256 % 16 * 4)] ++ "="
  | a :: b :: c :: rest =>
    String.mk [b64Char (a % 256 / 4), b64Char (a % 256 % 4 * 16 + b % 256 / 16),
      b64Char (b % 256 % 16 * 4 + c % 256 / 64), b64Char (c % 256 % 64)] ++
      base64Encode rest

/-- The `FrameData` payload built by `protocol.NewFrameMessage`. -/
def frameJson (width height : ℕ) (jpegData : List ℕ) (frameID : ℕ) : Json :=
  Json.obj [("width", Json.num width), ("height", Json.num height),
    ("format", Json.str "jpeg"), ("data", Json.str (base64Encode jpegData)),
    ("frame_id", Json.num frameID)]

/-- `protocol.NewFrameMessage`. -/
def newFrameMessage (width height : ℕ) (jpegData : List ℕ) (frameID : ℕ)
    (nowMs : ℤ) : Message :=
  newMessage "frame" (some (frameJson width height jpegData frameID)) nowMs

/-! ## Cloud client (internal/cloud/client.go)

`Client.connectionLoop` is embedded as a transition over a script of dial
outcomes: `ConnEvent.dialFail` is a failed dial, `ConnEvent.session n` is a
successful dial whose read loop delivers `n` messages and then hits a read
error.  Cancellation is the end of the script.  The produced `Act` trace
records, in order, dial attempts, backoff waits (with their duration) and
read-loop activity; the loop state carried across events is the current
backoff and the `reconnects` counter. -/

/-- Outcome of one iteration of `connectionLoop` as driven by the network. -/
inductive ConnEvent where
  | dialFail : ConnEvent
  | session : ℕ → ConnEvent
deriving DecidableEq, Repr

/-- Returns true on a failed dial event. -/
def ConnEvent.isDialFail : ConnEvent → Bool
  | ConnEvent.dialFail => true
  | ConnEvent.session _ => false

/-- Observable actions of the connection loop. -/
inductive Act where
  | dialAttempt : Bool → Act
  | wait : ℚ → Act
  | recvMsg : Act
  | readError : Act
deriving DecidableEq, Repr

/-- Cloud client configuration (durations in milliseconds). -/
structure CloudConfig where
  reconnectBackoff : ℚ
  maxBackoff : ℚ
deriving DecidableEq, Repr

/-- The backoff update after a failed dial: `backoff *= 2`, capped at
`MaxBackoff`. -/
def nextBackoff (cfg : CloudConfig) (b : ℚ) : ℚ :=
  if cfg.maxBackoff < b * 2 then cfg.maxBackoff else b * 2

/-- `Client.connectionLoop`: on a dial error, wait the current backoff,
double it (capped) and bump `reconnects`; on a successful dial, reset the
backoff and run the read loop until its read error, then immediately loop. -/
def connectionSteps (cfg : CloudConfig) :
    List ConnEvent → ℚ → ℕ → List Act × ℚ × ℕ
  | [], backoff, reconnects => ([], backoff, reconnects)
  | ConnEvent.dialFail :: rest, backoff, reconnects =>
    let out := connectionSteps cfg rest (nextBackoff cfg backoff) (reconnects + 1)
    (Act.dialAttempt false :: Act.wait backoff :: out.1, out.2)
  | ConnEvent.session n :: rest, _, reconnects =>
    let out := connectionSteps cfg rest cfg.reconnectBackoff reconnects
    (Act.dialAttempt true :: (List.replicate n Act.recvMsg ++ Act.readError :: out.1), out.2)

/-- True when the trace is empty or begins with a dial attempt. -/
def startsWithDial : List Act → Bool
  | [] => true
  | Act.dialAttempt _ :: _ => true
  | _ :: _ => false

/-- True when every read error in the trace is immediately followed by a
dial attempt (or ends the trace): no wait is inserted after a read error. -/
def immediateRedial : List Act → Bool
  | [] => true
  | Act.readError :: rest => startsWithDial rest && immediateRedial rest
  | _ :: rest => immediateRedial rest

/-- The send-relevant part of the cloud `Client` state. -/
structure CloudState where
  connected : Bool
  conn : Option Unit
  messagesSent : ℕ
deriving DecidableEq, Repr

/-- `cloud.NewClient`: no connection, counters at zero. -/
def newCloudClient : CloudState :=
  { connected := false, conn := none, messagesSent := 0 }

/-- Result of `Client.SendMessage`. -/
inductive SendResult where
  | ok : SendResult
  | notConnected : SendResult
  | writeError : SendResult
deriving DecidableEq, Repr

/-- `Client.SendMessage`: error (and no state change) when not connected;
otherwise marshal (value level, always succeeds) and write, bumping
`messagesSent` on success and dropping the connection on a write error. -/
def sendMessage (st : CloudState) (_ : Message) (writeOk : Bool) :
    CloudState × SendResult :=
  if st.connected = false ∨ st.conn = none then (st, SendResult.notConnected)
  else if writeOk then
    ({ st with messagesSent := st.messagesSent + 1 }, SendResult.ok)
  else ({ st with connected := false, conn := none }, SendResult.writeError)

/-- `Client.SendFrame`: build the frame message, then `SendMessage`. -/
def sendFrame (st : CloudState) (width height : ℕ) (jpegData : List ℕ)
    (frameID : ℕ) (nowMs : ℤ) (writeOk : Bool) : CloudState × SendResult :=
  sendMessage st (newFrameMessage width height jpegData frameID nowMs) writeOk

/-! ## USB DOA source (internal/xvf3800/usb.go) and mock (mock.go) -/

/-- `xvf3800.USBSourceConfig` (durations in milliseconds). -/
structure USBSourceConfig where
  maxConsecutiveErrors : ℕ
  initialBackoff : ℚ
  maxBackoff : ℚ
deriving DecidableEq, Repr

/-- `xvf3800.DefaultUSBSourceConfig`: 5 errors, 100 ms initial, 5 s max. -/
def defaultUSBSourceConfig : USBSourceConfig :=
  { maxConsecutiveErrors := 5, initialBackoff := 100, maxBackoff := 5000 }

/-- The mutable `USBSource` state guarded by its mutex.  The gousb device
and context handles are reduced to presence flags. -/
structure USBState where
  dev : Option Unit
  usbCtx : Option Unit
  closed : Bool
  healthy : Bool
  consecutiveErrors : ℕ
  maxErrors : ℕ
  reconnectBackoff : ℚ
  maxBackoff : ℚ
deriving DecidableEq, Repr

/-- `NewUSBSourceWithConfig` after a successful `openDevice`. -/
def newUSBSource (cfg : USBSourceConfig) : USBState :=
  { dev := some (), usbCtx := some (), closed := false, healthy := true
    consecutiveErrors := 0, maxErrors := cfg.maxConsecutiveErrors
    reconnectBackoff := cfg.initialBackoff, maxBackoff := cfg.maxBackoff }

/-- `USBSource.recordError`: bump `consecutiveErrors`; at `maxErrors` mark
unhealthy and drop the device handle to force a reconnect. -/
def recordError (st : USBState) : USBState :=
  let ce := st.consecutiveErrors + 1
  if st.maxErrors ≤ ce then
    { st with consecutiveErrors := ce, healthy := false, dev := none }
  else { st with consecutiveErrors := ce }

/-- `USBSource.recordSuccess`.  Note: the source resets the backoff to
`DefaultUSBSourceConfig().InitialBackoff`, i.e. to the hardcoded default,
not to the configured initial backoff. -/
def recordSuccess (st : USBState) : USBState :=
  { st with consecutiveErrors := 0, healthy := true
            reconnectBackoff := defaultUSBSourceConfig.initialBackoff }

/-- The backoff doubling inside `USBSource.reconnect`, capped at `maxBackoff`. -/
def nextUSBBackoff (st : USBState) : ℚ :=
  if st.maxBackoff < st.reconnectBackoff * 2 then st.maxBackoff
  else st.reconnectBackoff * 2

/-- Error kinds surfaced by `USBSource.GetDOA`. -/
inductive USBErr where
  | deviceClosed : USBErr
  | transferFailed : USBErr
  | reconnectFailed : USBErr
deriving DecidableEq, Repr

/-- Outcome of the USB control transfer: `failure` covers a transfer error,
a short read and a non-zero status byte (all three call `recordError` and
return an error); `success` carries the two parsed little-endian floats. -/
inductive TransferOutcome where
  | failure : TransferOutcome
  | success : ℚ → Bool → TransferOutcome
deriving DecidableEq, Repr

/-- The transfer-and-parse tail of `USBSource.GetDOA`. -/
def usbTransfer (st : USBState) (tr : TransferOutcome) (now : ℚ) (lat : ℤ) :
    USBState × Except USBErr Reading :=
  match tr with
  | TransferOutcome.failure => (recordError st, Except.error USBErr.transferFailed)
  | TransferOutcome.success rawAngle speaking =>
    (recordSuccess st,
     Except.ok { zeroReading with
        angle := ToEvaAngle rawAngle, rawAngle := rawAngle, speaking := speaking
        timestamp := now, latencyMs := lat })

/-- `USBSource.GetDOA`: closed check first (closed never touches the
device), reconnect when the handle is gone (sleep the backoff, double it
capped, then try to reopen: `reopenOk`), then the control transfer. -/
def usbGetDOA (st : USBState) (reopenOk : Bool) (tr : TransferOutcome)
    (now : ℚ) (lat : ℤ) : USBState × Except USBErr Reading :=
  if st.closed then (st, Except.error USBErr.deviceClosed)
  else
    match st.dev with
    | none =>
      let st1 := { st with reconnectBackoff := nextUSBBackoff st }
      if reopenOk then
        usbTransfer { st1 with dev := some (), healthy := true, consecutiveErrors := 0 }
          tr now lat
      else (st1, Except.error USBErr.reconnectFailed)
    | some _ => usbTransfer st tr now lat

/-- `USBSource.Close`: idempotent; always returns nil, drops both handles. -/
def usbClose (st : USBState) : USBState × Option USBErr :=
  if st.closed then (st, none)
  else ({ st with closed := true, dev := none, usbCtx := none }, none)

/-- The mock source state (internal/xvf3800/mock.go). -/
structure MockState where
  angle : ℚ
  speaking : Bool
  healthy : Bool
  simulateWave : Bool
deriving DecidableEq, Repr

/-- `MockSource.Close`: always returns nil. -/
def mockClose (_ : MockState) : Option USBErr := none

/-- A tracker state whose history holds five results with smoothed angle 0,
used to instantiate the stability-bonus claims. -/
def exHistoryState : TrackerState :=
  { latest := zeroResult, history := [zeroResult, zeroResult, zeroResult, zeroResult, zeroResult]
    speakingLatchedAt := 0, pollCount := 5, pollErrorCount := 0, totalLatencyMs := 0 }

/-- A tracker configuration with latch duration 2 ms, used to instantiate
the speaking-latch claims. -/
def latchTestConfig : TrackerConfig :=
  { pollInterval := 10, speakingLatchDur := 2, emaAlpha := 1, historySize := 10
    confidence := { base := 0, speakingBonus := 0, stabilityBonus := 0 } }

/-- A reading with the speaking flag set, for the latch claims. -/
def speakingReading : Reading := { zeroReading with speaking := true }

/-- An example motor-command payload (value level), as in the round-trip
scenario of the spec. -/
def exampleMotorPayload : Json :=
  Json.obj [("head", Json.obj [("x", Json.num (1 / 10)), ("y", Json.num (2 / 10)),
      ("z", Json.num (3 / 10)), ("roll", Json.num 0), ("pitch", Json.num 0),
      ("yaw", Json.num (5 / 10))]),
    ("antennas", Json.arr [Json.num (3 / 10), Json.num (7 / 10)]),
    ("body_yaw", Json.num (1 / 10))]

/-! ## Helper lemmas -/

theorem piF_pos : 0 < piF := by norm_num [piF]

theorem normSub_of_le {a : ℚ} (h : a ≤ piF) : normSub a = a := by
  rw [normSub, dif_neg (not_lt.mpr h)]

theorem normAdd_of_ge {a : ℚ} (h : -piF ≤ a) : normAdd a = a := by
  rw [normAdd, dif_neg (not_lt.mpr h)]

theorem normAdd_step {a : ℚ} (h : a < -piF) : normAdd a = normAdd (a + 2 * piF) := by
  rw [normAdd, dif_pos h]

theorem normSub_le (a : ℚ) : normSub a ≤ piF := by
  induction a using normSub.induct with
  | case1 a h ih =>
    rw [normSub, dif_pos h]
    exact ih
  | case2 a h =>
    rw [normSub, dif_neg h]
    exact not_lt.mp h

theorem normAdd_ge (a : ℚ) : -piF ≤ normAdd a := by
  induction a using normAdd.induct with
  | case1 a h ih =>
    rw [normAdd, dif_pos h]
    exact ih
  | case2 a h =>
    rw [normAdd, dif_neg h]
    exact not_lt.mp h

theorem normAdd_le (a : ℚ) : a ≤ piF → normAdd a ≤ piF := by
  induction a using normAdd.induct with
  | case1 a hlt ih =>
    intro _
    rw [normAdd, dif_pos hlt]
    exact ih (by have := piF_pos; linarith)
  | case2 a hlt =>
    intro h
    rw [normAdd, dif_neg hlt]
    exact h

theorem sum_map_const {α : Type} (l : List α) (f : α → ℚ) (c : ℚ)
    (h : ∀ x ∈ l, f x = c) : (l.map f).sum = l.length * c := by
  induction l with
  | nil => simp
  | cons a t ih =>
    simp only [List.map_cons, List.sum_cons, List.length_cons]
    rw [h a (List.mem_cons_self a t), ih (fun x hx => h x (List.mem_cons_of_mem a hx))]
    push_cast
    ring

theorem runPolls_append (o : TrigOracle) (cfg : TrackerConfig)
    (l1 l2 : List PollEvent) (st : TrackerState) :
    runPolls o cfg (l1 ++ l2) st = runPolls o cfg l2 (runPolls o cfg l1 st) := by
  induction l1 generalizing st with
  | nil => rfl
  | cons e rest ih => simp [runPolls, ih]

theorem pollLatched (o : TrigOracle) (cfg : TrackerConfig) (st : TrackerState)
    (r : Reading) (now : ℚ) (lat : ℤ) :
    (pollSuccess o cfg st r now lat).latest.speakingLatched
      = (updateSpeakingLatch cfg st r.speaking now).2 := by
  simp [pollSuccess, pollResult]

theorem pollLatchedAt (o : TrigOracle) (cfg : TrackerConfig) (st : TrackerState)
    (r : Reading) (now : ℚ) (lat : ℤ) :
    (pollSuccess o cfg st r now lat).speakingLatchedAt
      = (updateSpeakingLatch cfg st r.speaking now).1 := rfl

theorem latchedAt_ge (o : TrigOracle) (cfg : TrackerConfig) (es : List PollEvent)
    (st : TrackerState) (c : ℚ) (hst : c ≤ st.speakingLatchedAt)
    (hes : ∀ e ∈ es, c ≤ e.2.1) :
    c ≤ (runPolls o cfg es st).speakingLatchedAt := by
  induction es generalizing st with
  | nil => exact hst
  | cons e rest ih =>
    simp only [runPolls]
    apply ih
    · rw [pollLatchedAt]
      unfold updateSpeakingLatch
      split_ifs
      · exact hes e (List.mem_cons_self e rest)
      · exact hst
      · exact hst
    · intro x hx
      exact hes x (List.mem_cons_of_mem e hx)

theorem latchedAt_const (o : TrigOracle) (cfg : TrackerConfig) (es : List PollEvent)
    (st : TrackerState) (h : ∀ e ∈ es, e.1.speaking = false) :
    (runPolls o cfg es st).speakingLatchedAt = st.speakingLatchedAt := by
  induction es generalizing st with
  | nil => rfl
  | cons e rest ih =>
    simp only [runPolls]
    rw [ih _ (fun x hx => h x (List.mem_cons_of_mem e hx)), pollLatchedAt]
    unfold updateSpeakingLatch
    rw [h e (List.mem_cons_self e rest)]
    split_ifs <;> first | rfl | contradiction

theorem connectionSteps_starts (cfg : CloudConfig) (es : List ConnEvent)
    (b : ℚ) (rc : ℕ) : startsWithDial (connectionSteps cfg es b rc).1 = true := by
  cases es with
  | nil => rfl
  | cons e rest => cases e <;> rfl

theorem immediateRedial_replicate (n : ℕ) (l : List Act) :
    immediateRedial (List.replicate n Act.recvMsg ++ l) = immediateRedial l := by
  induction n with
  | zero => rfl
  | succ k ih => simpa [List.replicate_succ, immediateRedial] using ih

/-! ## Claim theorems -/

/-- C5 (amended): `NormalizeAngle` returns a value in the closed interval
[-π, π]: at least -π and at most π.  (The claim's strict lower bound fails:
see the counterexample at a = -π.) -/
theorem C5_normalize_range (a : ℚ) :
    -piF ≤ NormalizeAngle a ∧ NormalizeAngle a ≤ piF := by
  unfold NormalizeAngle
  exact ⟨normAdd_ge (normSub a), normAdd_le (normSub a) (normSub_le a)⟩

/-- C5 (counterexample): `NormalizeAngle (-π)` is not strictly greater than
-π — it returns -π itself, and `NormalizeAngle (-3π)` also returns -π, so
the result range is the closed interval, not (-π, π]. -/
theorem C5_counterexample :
    ¬ (-piF < NormalizeAngle (-piF)) ∧ NormalizeAngle (-3 * piF) = -piF := by
  have hpi := piF_pos
  have h1 : NormalizeAngle (-piF) = -piF := by
    unfold NormalizeAngle
    rw [normSub_of_le (by linarith), normAdd_of_ge (le_refl _)]
  have h2 : NormalizeAngle (-3 * piF) = -piF := by
    unfold NormalizeAngle
    rw [normSub_of_le (by linarith), normAdd_step (by linarith)]
    have h3 : -3 * piF + 2 * piF = -piF := by ring
    rw [h3, normAdd_of_ge (le_refl _)]
  exact ⟨by rw [h1]; exact lt_irrefl _, h2⟩

/-- C8: on a freshly constructed cloud client (no `Connect`), `SendMessage`
with any message and `SendFrame(640, 480, bytes, 1)` return the
not-connected error, leave the state unchanged, and `messagesSent` stays 0. -/
theorem C8_send_not_connected (m : Message) (w : Bool) (jpeg : List ℕ) (nowMs : ℤ) :
    sendMessage newCloudClient m w = (newCloudClient, SendResult.notConnected) ∧
    sendFrame newCloudClient 640 480 jpeg 1 nowMs w = (newCloudClient, SendResult.notConnected) ∧
    newCloudClient.messagesSent = 0 := by
  refine ⟨?_, ?_, rfl⟩ <;> simp [sendMessage, sendFrame, newCloudClient]

/-- C9: `Close` on the USB source returns nil both the first and the second
time; any `GetDOA` after `Close` returns the device-closed error with the
state untouched (the device is never contacted); the mock source's `Close`
also returns nil every time. -/
theorem C9_close_idempotent (st : USBState) (reopenOk : Bool)
    (tr : TransferOutcome) (now : ℚ) (lat : ℤ) (m : MockState) :
    (usbClose st).2 = none ∧
    (usbClose (usbClose st).1).2 = none ∧
    (usbGetDOA (usbClose st).1 reopenOk tr now lat).2 = Except.error USBErr.deviceClosed ∧
    (usbGetDOA (usbClose st).1 reopenOk tr now lat).1 = (usbClose st).1 ∧
    mockClose m = none := by
  unfold usbClose usbGetDOA mockClose
  by_cases h : st.closed <;> simp [h]

/-- C6: with ema_alpha = 0.5 and empty history (and room for at least one
history entry), the first successful poll yields smoothed_angle = a and the
second yields exactly 0.5·b + 0.5·a. -/
theorem C6_ema_two_polls (o : TrigOracle) (cfg : TrackerConfig) (st0 : TrackerState)
    (ra rb : Reading) (n1 n2 : ℚ) (l1 l2 : ℤ)
    (halpha : cfg.emaAlpha = 1 / 2) (hhist : st0.history = [])
    (hsize : 1 ≤ cfg.historySize) :
    (pollSuccess o cfg st0 ra n1 l1).latest.smoothedAngle = ra.angle ∧
    (pollSuccess o cfg (pollSuccess o cfg st0 ra n1 l1) rb n2 l2).latest.smoothedAngle
      = 1 / 2 * rb.angle + 1 / 2 * ra.angle := by
  have h1 : (pollSuccess o cfg st0 ra n1 l1).latest.smoothedAngle = ra.angle := by
    simp [pollSuccess, pollResult, emaSmooth, hhist]
  refine ⟨h1, ?_⟩
  have hh : (pollSuccess o cfg st0 ra n1 l1).history.length = 1 := by
    simp only [pollSuccess, appendHistory, hhist, List.nil_append, List.length_cons,
      List.length_nil]
    rw [if_neg (by omega)]
    rfl
  have h2 : (pollSuccess o cfg (pollSuccess o cfg st0 ra n1 l1) rb n2 l2).latest.smoothedAngle
      = emaSmooth cfg (pollSuccess o cfg st0 ra n1 l1) rb := by
    simp [pollSuccess, pollResult]
  rw [h2]
  unfold emaSmooth
  rw [if_pos (by rw [hh]; norm_num), h1, halpha]
  ring

/-- C6 (witness): concrete instantiation with angles a = 2 and b = 4: the
first smoothed angle is 2 and the second is 3. -/
theorem C6_witness :
    (pollSuccess zeroOracle { defaultTrackerConfig with emaAlpha := 1 / 2 }
      initialTrackerState { zeroReading with angle := 2 } 0 0).latest.smoothedAngle
      = ({ zeroReading with angle := 2 } : Reading).angle ∧
    (pollSuccess zeroOracle { defaultTrackerConfig with emaAlpha := 1 / 2 }
      (pollSuccess zeroOracle { defaultTrackerConfig with emaAlpha := 1 / 2 }
        initialTrackerState { zeroReading with angle := 2 } 0 0)
      { zeroReading with angle := 4 } 1 0).latest.smoothedAngle
      = 1 / 2 * ({ zeroReading with angle := 4 } : Reading).angle
        + 1 / 2 * ({ zeroReading with angle := 2 } : Reading).angle :=
  C6_ema_two_polls zeroOracle { defaultTrackerConfig with emaAlpha := 1 / 2 }
    initialTrackerState { zeroReading with angle := 2 } { zeroReading with angle := 4 }
    0 1 0 0 rfl rfl (by norm_num [defaultTrackerConfig])

/-- C10 (amended): when the confidence base lies in [0, 1] and both bonuses
are nonnegative, every successful poll yields confidence at least the base,
and `GetTarget` then reports ok = true. -/
theorem C10_confidence_ge_base (o : TrigOracle) (cfg : TrackerConfig)
    (st : TrackerState) (r : Reading) (now : ℚ) (lat : ℤ)
    (h0 : 0 ≤ cfg.confidence.base) (h1 : cfg.confidence.base ≤ 1)
    (hsp : 0 ≤ cfg.confidence.speakingBonus) (hst : 0 ≤ cfg.confidence.stabilityBonus) :
    cfg.confidence.base ≤ (pollSuccess o cfg st r now lat).latest.confidence ∧
    (getTarget cfg (pollSuccess o cfg st r now lat)).2.2 = true := by
  have hconf : cfg.confidence.base ≤ (pollSuccess o cfg st r now lat).latest.confidence := by
    have hp : (pollSuccess o cfg st r now lat).latest.confidence
        = calculateConfidence cfg st.history
            (updateSpeakingLatch cfg st r.speaking now).2 (emaSmooth cfg st r) := by
      simp [pollSuccess, pollResult]
    rw [hp]
    simp only [calculateConfidence, Clamp]
    split_ifs <;> linarith
  refine ⟨hconf, ?_⟩
  simp [getTarget, not_lt.mpr hconf]

/-- C10 (witness): the default configuration satisfies the hypotheses, and a
poll from the initial state reaches confidence at least 0.3 with
`GetTarget` returning ok. -/
theorem C10_witness :
    defaultTrackerConfig.confidence.base
      ≤ (pollSuccess zeroOracle defaultTrackerConfig initialTrackerState
          zeroReading 0 0).latest.confidence ∧
    (getTarget defaultTrackerConfig
      (pollSuccess zeroOracle defaultTrackerConfig initialTrackerState
        zeroReading 0 0)).2.2 = true :=
  C10_confidence_ge_base zeroOracle defaultTrackerConfig initialTrackerState
    zeroReading 0 0 (by norm_num [defaultTrackerConfig])
    (by norm_num [defaultTrackerConfig]) (by norm_num [defaultTrackerConfig])
    (by norm_num [defaultTrackerConfig])

/-- C10 (counterexample): with base 0.5 in [0, 1] but a negative speaking
bonus, a poll with a speaking reading produces confidence 0 < base and
`GetTarget` returns ok = false, refuting the claim as stated for arbitrary
configurations. -/
theorem C10_counterexample :
    (let cfg : TrackerConfig :=
       { pollInterval := 50, speakingLatchDur := 500, emaAlpha := 1 / 2, historySize := 10
         confidence := { base := 1 / 2, speakingBonus := -(1 / 2), stabilityBonus := 0 } }
     let st := pollSuccess zeroOracle cfg initialTrackerState
       { zeroReading with speaking := true } 0 0
     0 ≤ cfg.confidence.base ∧ cfg.confidence.base ≤ 1 ∧
       st.latest.confidence < cfg.confidence.base ∧ (getTarget cfg st).2.2 = false) := by
  norm_num [pollSuccess, pollResult, calculateConfidence, updateSpeakingLatch, emaSmooth,
    getTarget, Clamp, initialTrackerState, zeroResult, zeroReading]

/-- C1 (amended): if at the start of a poll the last 5 history entries all
have smoothed angle v, the confidence bonuses are nonnegative and sum with
the base to at most 1, and additionally the new smoothed angle is within 0.1
of v (squared distance below 0.01 — the code measures the variance of the 5
samples against the just-computed smoothed angle, not against v), then the
poll's confidence is at least base + stability bonus, plus the speaking
bonus when the result is latched. -/
theorem C1_stability_bonus (o : TrigOracle) (cfg : TrackerConfig)
    (st : TrackerState) (r : Reading) (now : ℚ) (lat : ℤ) (v : ℚ)
    (hlen : 5 ≤ st.history.length)
    (hall : ∀ x ∈ st.history.drop (st.history.length - 5), x.smoothedAngle = v)
    (hb : 0 ≤ cfg.confidence.base) (hsp : 0 ≤ cfg.confidence.speakingBonus)
    (hsb : 0 ≤ cfg.confidence.stabilityBonus)
    (hsum : cfg.confidence.base + cfg.confidence.speakingBonus
      + cfg.confidence.stabilityBonus ≤ 1)
    (hvar : (v - emaSmooth cfg st r) * (v - emaSmooth cfg st r) < 1 / 100) :
    cfg.confidence.base + cfg.confidence.stabilityBonus +
      (if (pollSuccess o cfg st r now lat).latest.speakingLatched = true
       then cfg.confidence.speakingBonus else 0)
      ≤ (pollSuccess o cfg st r now lat).latest.confidence := by
  have hproj1 : (pollSuccess o cfg st r now lat).latest.speakingLatched
      = (updateSpeakingLatch cfg st r.speaking now).2 := by
    simp [pollSuccess, pollResult]
  have hproj2 : (pollSuccess o cfg st r now lat).latest.confidence
      = calculateConfidence cfg st.history
          (updateSpeakingLatch cfg st r.speaking now).2 (emaSmooth cfg st r) := by
    simp [pollSuccess, pollResult]
  rw [hproj1, hproj2]
  have hdroplen : (st.history.drop (st.history.length - 5)).length = 5 := by
    rw [List.length_drop]
    omega
  have hsum5 : ((st.history.drop (st.history.length - 5)).map
      (fun x => (x.smoothedAngle - emaSmooth cfg st r)
        * (x.smoothedAngle - emaSmooth cfg st r))).sum
      = 5 * ((v - emaSmooth cfg st r) * (v - emaSmooth cfg st r)) := by
    rw [sum_map_const _ _ ((v - emaSmooth cfg st r) * (v - emaSmooth cfg st r))
      (fun x hx => by rw [hall x hx]), hdroplen]
    norm_num
  unfold calculateConfidence
  simp only [hsum5]
  rw [if_pos hlen]
  have hdiv : 5 * ((v - emaSmooth cfg st r) * (v - emaSmooth cfg st r)) / 5
      = (v - emaSmooth cfg st r) * (v - emaSmooth cfg st r) := by ring
  rw [hdiv, if_pos hvar]
  simp only [Clamp]
  by_cases hLb : (updateSpeakingLatch cfg st r.speaking now).2 = true
  · simp only [if_pos hLb]
    split_ifs <;> linarith
  · simp only [if_neg hLb]
    split_ifs <;> linarith

/-- C1 (witness): with the default configuration, five history entries with
smoothed angle 0 and a new reading of angle 0, the confidence reaches
base + stability bonus. -/
theorem C1_witness :
    defaultTrackerConfig.confidence.base + defaultTrackerConfig.confidence.stabilityBonus +
      (if (pollSuccess zeroOracle defaultTrackerConfig exHistoryState
            zeroReading 10000 0).latest.speakingLatched = true
       then defaultTrackerConfig.confidence.speakingBonus else 0)
      ≤ (pollSuccess zeroOracle defaultTrackerConfig exHistoryState
          zeroReading 10000 0).latest.confidence :=
  C1_stability_bonus zeroOracle defaultTrackerConfig exHistoryState zeroReading
    10000 0 0 (by norm_num [exHistoryState]) (by simp [exHistoryState, zeroResult])
    (by norm_num [defaultTrackerConfig]) (by norm_num [defaultTrackerConfig])
    (by norm_num [defaultTrackerConfig]) (by norm_num [defaultTrackerConfig])
    (by norm_num [emaSmooth, exHistoryState, zeroReading, zeroResult, defaultTrackerConfig])

/-- C1 (counterexample): with the default configuration and five history
entries all at smoothed angle 0, a poll whose reading has angle 3 (new
smoothed angle 0.9, variance 0.81 against it) yields confidence 0.3, below
base + stability bonus = 0.5, refuting the claim as stated. -/
theorem C1_counterexample :
    (let res := (pollSuccess zeroOracle defaultTrackerConfig exHistoryState
       { zeroReading with angle := 3 } 10000 0).latest
     (5 ≤ exHistoryState.history.length ∧
       ∀ x ∈ exHistoryState.history.drop (exHistoryState.history.length - 5),
         x.smoothedAngle = 0) ∧
       res.speakingLatched = false ∧
       res.confidence < defaultTrackerConfig.confidence.base
         + defaultTrackerConfig.confidence.stabilityBonus) := by
  norm_num [pollSuccess, pollResult, calculateConfidence, updateSpeakingLatch, emaSmooth,
    Clamp, exHistoryState, zeroResult, zeroReading, defaultTrackerConfig]

/-- C2 (amended): whatever the dial outcomes, the `reconnects` counter ends
at its start value plus exactly the number of failed dial attempts, and
every read error that ends an established connection is immediately followed
by the next dial attempt — no backoff wait and no counter increment happen
between a read error and the redial; waits occur only after failed dials. -/
theorem C2_immediate_redial (cfg : CloudConfig) (events : List ConnEvent)
    (b : ℚ) (rc : ℕ) :
    (connectionSteps cfg events b rc).2.2
      = rc + events.countP (fun e => e.isDialFail) ∧
    immediateRedial (connectionSteps cfg events b rc).1 = true := by
  induction events generalizing b rc with
  | nil => simp [connectionSteps, immediateRedial]
  | cons e rest ih =>
    cases e with
    | dialFail =>
      have h := ih (nextBackoff cfg b) (rc + 1)
      constructor
      · simp [connectionSteps, h.1, List.countP_cons, ConnEvent.isDialFail]
        omega
      · simp only [connectionSteps, immediateRedial]
        exact h.2
    | session n =>
      have h := ih cfg.reconnectBackoff rc
      constructor
      · simp [connectionSteps, h.1, List.countP_cons, ConnEvent.isDialFail]
      · simp only [connectionSteps, immediateRedial, immediateRedial_replicate]
        rw [connectionSteps_starts, h.2]
        rfl

/-- C2 (counterexample): two consecutive sessions each ending in a read
error: the trace redials immediately with no wait act at all, and the
reconnects counter stays 0, refuting the claim that a read-error'd
connection increments `reconnects` and waits the backoff before the next
attempt. -/
theorem C2_counterexample :
    (let out := connectionSteps { reconnectBackoff := 50, maxBackoff := 100 }
       [ConnEvent.session 0, ConnEvent.session 0] 50 0
     out.1 = [Act.dialAttempt true, Act.readError, Act.dialAttempt true, Act.readError] ∧
       out.2.2 = 0 ∧
       out.1.countP (fun a => match a with | Act.wait _ => true | _ => false) = 0) := by
  decide

/-- C3 (amended): after a poll with speaking = true at time t (event times
from then on at least t), every later poll with speaking = false within
[t, t + latch duration) still reports speaking_latched = true; and a poll
with speaking = false at or after t + latch duration reports
speaking_latched = false provided no intervening poll had speaking = true
(without that proviso the second half fails; see the counterexample). -/
theorem C3_speaking_latch (o : TrigOracle) (cfg : TrackerConfig) (st0 : TrackerState)
    (pre : List PollEvent) (rt : Reading) (t : ℚ) (lt : ℤ) (mid : List PollEvent)
    (rj rk : Reading) (tj tk : ℚ) (lj lk : ℤ)
    (hrt : rt.speaking = true) (hrj : rj.speaking = false) (hrk : rk.speaking = false)
    (hmid : ∀ e ∈ mid, t ≤ e.2.1) :
    (tj - t < cfg.speakingLatchDur →
      (pollSuccess o cfg (runPolls o cfg (pre ++ (rt, t, lt) :: mid) st0)
        rj tj lj).latest.speakingLatched = true) ∧
    ((∀ e ∈ mid, e.1.speaking = false) → t + cfg.speakingLatchDur ≤ tk →
      (pollSuccess o cfg (runPolls o cfg (pre ++ (rt, t, lt) :: mid) st0)
        rk tk lk).latest.speakingLatched = false) := by
  have hafter : runPolls o cfg (pre ++ (rt, t, lt) :: mid) st0
      = runPolls o cfg mid (pollSuccess o cfg (runPolls o cfg pre st0) rt t lt) := by
    rw [runPolls_append]
    rfl
  have hlatcht : (pollSuccess o cfg (runPolls o cfg pre st0) rt t lt).speakingLatchedAt = t := by
    rw [pollLatchedAt]
    unfold updateSpeakingLatch
    rw [hrt]
    rfl
  constructor
  · intro hwin
    have hge : t ≤ (runPolls o cfg mid
        (pollSuccess o cfg (runPolls o cfg pre st0) rt t lt)).speakingLatchedAt :=
      latchedAt_ge o cfg mid _ t (le_of_eq hlatcht.symm) hmid
    rw [hafter, pollLatched]
    unfold updateSpeakingLatch
    rw [hrj]
    rw [if_neg (by simp), if_pos (by linarith)]
  · intro hnos hout
    have heq : (runPolls o cfg mid
        (pollSuccess o cfg (runPolls o cfg pre st0) rt t lt)).speakingLatchedAt = t := by
      rw [latchedAt_const o cfg mid _ hnos, hlatcht]
    rw [hafter, pollLatched]
    unfold updateSpeakingLatch
    rw [hrk]
    rw [if_neg (by simp), if_neg (by rw [heq]; linarith)]

/-- C3 (witness): latch duration 2, a speaking poll at time 0: a silent poll
at time 1 is still latched, a silent poll at time 5 is not. -/
theorem C3_witness :
    (pollSuccess zeroOracle latchTestConfig
      (runPolls zeroOracle latchTestConfig
        ([] ++ (speakingReading, (0 : ℚ), (0 : ℤ)) :: []) initialTrackerState)
      zeroReading 1 0).latest.speakingLatched = true ∧
    (pollSuccess zeroOracle latchTestConfig
      (runPolls zeroOracle latchTestConfig
        ([] ++ (speakingReading, (0 : ℚ), (0 : ℤ)) :: []) initialTrackerState)
      zeroReading 5 0).latest.speakingLatched = false :=
  ⟨(C3_speaking_latch zeroOracle latchTestConfig initialTrackerState []
      speakingReading 0 0 [] zeroReading zeroReading 1 5 0 0 rfl rfl rfl
      (by simp)).1 (by norm_num [latchTestConfig]),
   (C3_speaking_latch zeroOracle latchTestConfig initialTrackerState []
      speakingReading 0 0 [] zeroReading zeroReading 1 5 0 0 rfl rfl rfl
      (by simp)).2 (by simp) (by norm_num [latchTestConfig])⟩

/-- C3 (counterexample): with latch duration 2, speaking polls at times 0
and 1 followed by a silent poll at time 2: the silent poll is at
t + latch duration for the speaking poll at t = 0, yet it still reports
speaking_latched = true (the intervening speaking poll re-armed the latch),
refuting the claim's second half as stated. -/
theorem C3_counterexample :
    (let st1 := runPolls zeroOracle latchTestConfig
       [(speakingReading, 0, 0), (speakingReading, 1, 0)] initialTrackerState
     (0 : ℚ) + latchTestConfig.speakingLatchDur ≤ 2 ∧
       (pollSuccess zeroOracle latchTestConfig st1
         zeroReading 2 0).latest.speakingLatched = true) := by
  refine ⟨by norm_num [latchTestConfig], ?_⟩
  rw [pollLatched]
  norm_num [runPolls, pollLatchedAt, updateSpeakingLatch, zeroReading, speakingReading,
    initialTrackerState, latchTestConfig]

/-- C7: for every message built by `NewMessage` with a supported type and a
serializable payload, `ParseMessage` of its `Bytes` succeeds and returns a
message equal in type, timestamp and payload; `ParseMessage` of malformed
bytes, or of well-formed JSON that is not an object, returns an error. -/
theorem C7_codec_roundtrip (t : String) (ht : t ∈ supportedTypes)
    (d : Option Json) (nowMs : ℤ) :
    parseMessage (bytesOf (newMessage t d nowMs)) = Except.ok (newMessage t d nowMs) ∧
    (parseMessage RawInput.malformed).isOk = false ∧
    (parseMessage (RawInput.valid (Json.str "x"))).isOk = false := by
  refine ⟨?_, rfl, rfl⟩
  unfold bytesOf parseMessage encodeMessage newMessage
  by_cases hts : nowMs = 0
  · cases d with
    | none => simp [hts, decodeFields, zeroMessage]
    | some j => simp [hts, decodeFields, zeroMessage]
  · cases d with
    | none => simp [hts, decodeFields, zeroMessage]
    | some j => simp [hts, decodeFields, zeroMessage]

/-- C7 (witness): round-trip of a concrete motor message with timestamp 5. -/
theorem C7_witness :
    parseMessage (bytesOf (newMessage "motor" (some exampleMotorPayload) 5))
      = Except.ok (newMessage "motor" (some exampleMotorPayload) 5) :=
  (C7_codec_roundtrip "motor" (by simp [supportedTypes]) (some exampleMotorPayload) 5).1

/-- C4 (code divergence): with a custom `InitialBackoff` of 200 ms, one
failed `get_doa` followed by one successful `get_doa` resets
`consecutiveErrors` to 0 as claimed, but resets the reconnect backoff to the
hardcoded default 100 ms instead of the configured 200 ms. -/
theorem C4_backoff_divergence :
    (let cfg : USBSourceConfig :=
       { maxConsecutiveErrors := 5, initialBackoff := 200, maxBackoff := 5000 }
     let st1 := (usbGetDOA (newUSBSource cfg) true TransferOutcome.failure 0 0).1
     let st2 := (usbGetDOA st1 true (TransferOutcome.success 0 false) 1 0).1
     st2.consecutiveErrors = 0 ∧ st2.healthy = true ∧
       st2.reconnectBackoff = defaultUSBSourceConfig.initialBackoff ∧
       st2.reconnectBackoff ≠ cfg.initialBackoff) := by
  decide

end GoEva
